import Mathlib

/-!
Verification of the streaming-time tracker bot (src/main.py).

The development shallowly embeds the session-tracking and rank-reconciliation
logic of the bot:

* `on_voice_state_update` embeds the presence-event handler (lines 178-232),
* `save_streaming_time_key` embeds one iteration of the periodic flush task
  body for a single key (lines 243-301),
* `voice_time_upsert` embeds the `INSERT ... ON CONFLICT DO UPDATE` statement
  used for every merge into the `voice_time` table,
* `ROLE_HIERARCHY`, `targetRole`, `processMember` and `update_guild_vc_roles`
  embed the rank-to-role reconciliation pass (lines 355-418).

Machine state is explicit: `TrackerState` carries the in-memory `join_times`
dictionary, the persistent store contents, and a log of successful merges
(each database write that was actually executed).  Time is modelled as an
integer number of monotonic seconds; sub-second precision is out of scope
(the bot itself truncates every duration with `int(...)`).
-/

namespace StreamBot

/-- A `(guild_id, user_id)` pair: the key of the in-memory `join_times`
dictionary and the primary key of the `voice_time` table (line 105). -/
abbrev Key := Nat × Nat

/-- The fields of a Discord voice state the handler reads: `channel_present`
stands for `state.channel is not None`, `self_stream` for `state.self_stream`. -/
structure VoiceState where
  channel_present : Bool
  self_stream : Bool
  deriving DecidableEq

/-- The fields of the event's `member` object the handler reads.  `hasRole`
is `stream_role in member.roles` at the time the event is processed (the
member object carries only current roles); `roleExists` is whether
`discord.utils.get(member.guild.roles, name=STREAM_ROLE_NAME)` found the
"Streaming stat" role in the guild. -/
structure Member where
  isBot : Bool
  hasGuild : Bool
  guild_id : Nat
  id : Nat
  hasRole : Bool
  roleExists : Bool
  deriving DecidableEq

/-- Dictionary write `m[k] = v`. -/
def mapSet (m : Key → Option Int) (k : Key) (v : Int) : Key → Option Int :=
  fun q => if q = k then some v else m q

/-- Dictionary delete `del m[k]` / `m.pop(k, None)`. -/
def mapDel (m : Key → Option Int) (k : Key) : Key → Option Int :=
  fun q => if q = k then none else m q

/-- The merge statement used at every save site (lines 219-225, 273-279,
292-297): `INSERT INTO voice_time ... VALUES (g, u, delta) ON CONFLICT
(guild_id, user_id) DO UPDATE SET total_seconds = voice_time.total_seconds
+ delta`.  Creates the row with value `delta` when absent, otherwise adds
`delta` to the existing total.  There is no guard on the sign of `delta`. -/
def voice_time_upsert (store : Key → Option Int) (k : Key) (delta : Int) :
    Key → Option Int :=
  fun q => if q = k then some ((store k).getD 0 + delta) else store q

/-- The tracker's mutable state: the module-level `join_times` dictionary
(line 83), the contents of the `voice_time` table, and a ghost log recording
every merge that was actually executed against the store (newest first). -/
structure TrackerState where
  join_times : Key → Option Int
  store : Key → Option Int
  mergeLog : List (Key × Int)

/-- Empty dictionary, empty table, no merges performed yet. -/
def initState : TrackerState :=
  { join_times := fun _ => none, store := fun _ => none, mergeLog := [] }

/-- Execute one merge: run the upsert and record it in the log. -/
def doMerge (st : TrackerState) (k : Key) (delta : Int) : TrackerState :=
  { st with
    store := voice_time_upsert st.store k delta
    mergeLog := (k, delta) :: st.mergeLog }

/-- Total number of seconds merged into the store for key `k` so far. -/
def mergedFor (st : TrackerState) (k : Key) : Int :=
  (st.mergeLog.filter (fun p => decide (p.1 = k))).foldr (fun p a => p.2 + a) 0

/-- Shallow embedding of the presence-event handler `on_voice_state_update`
(src/main.py lines 178-232).  `dbOk` tells whether the database write inside
the `try` block succeeds (`True`) or raises (`False`, the exception is caught
and logged at line 227-228; the `del join_times[key]` at line 230 runs either
way).  Note that line 199 computes `had_role_before` from `member.roles`,
i.e. from the member's current roles, exactly like `has_role_now`. -/
def on_voice_state_update (st : TrackerState) (member : Member)
    (before after : VoiceState) (now : Int) (dbOk : Bool) : TrackerState :=
  if member.isBot || !member.hasGuild then st
  else
    let key : Key := (member.guild_id, member.id)
    if !member.roleExists then st
    else
      let is_streaming_now := after.channel_present && after.self_stream
      let has_role_now := member.hasRole
      let was_streaming_before := before.channel_present && before.self_stream
      let had_role_before := member.hasRole
      let should_track_now := is_streaming_now && has_role_now
      let was_tracking_before := was_streaming_before && had_role_before
      if should_track_now && !was_tracking_before && (st.join_times key).isNone then
        { st with join_times := mapSet st.join_times key now }
      else if was_tracking_before && !should_track_now && (st.join_times key).isSome then
        let session_time := now - (st.join_times key).getD 0
        let st1 :=
          if 5 ≤ session_time then (if dbOk then doMerge st key session_time else st)
          else st
        { st1 with join_times := mapDel st1.join_times key }
      else st

/-- What the flush task observes about external state for one key
(lines 251-266): whether `bot.get_guild` and `guild.get_member` succeed,
whether the "Streaming stat" role exists in the guild, whether
`member.voice and member.voice.self_stream` holds, and whether the member
currently has the role. -/
structure FlushObs where
  guildFound : Bool
  memberFound : Bool
  roleExists : Bool
  is_streaming : Bool
  has_role : Bool
  deriving DecidableEq

/-- Shallow embedding of one iteration of the `save_streaming_time` loop body
for a single key (src/main.py lines 243-301).  The whole body sits inside a
`try` whose handler only logs (line 303-304), so when the database write
raises (`dbOk = false`) the rest of the body - including the
`join_times.pop` at line 284 and the timer reset at line 300 - is skipped. -/
def save_streaming_time_key (st : TrackerState) (key : Key) (obs : FlushObs)
    (now : Int) (dbOk : Bool) : TrackerState :=
  match st.join_times key with
  | none => st
  | some join_time =>
    if !obs.guildFound then st
    else if !obs.memberFound then st
    else if !obs.roleExists then st
    else if !obs.is_streaming || !obs.has_role then
      let session_time := now - join_time
      if 5 ≤ session_time then
        if dbOk then
          let st1 := doMerge st key session_time
          { st1 with join_times := mapDel st1.join_times key }
        else st
      else { st with join_times := mapDel st.join_times key }
    else
      let elapsed := now - join_time
      if 30 ≤ elapsed then
        if dbOk then
          let st1 := doMerge st key elapsed
          { st1 with join_times := mapSet st1.join_times key now }
        else st
      else st

/-- The role hierarchy table (src/main.py lines 68-79), stored exactly in the
source's order: least exclusive first, with the catch-all `None` threshold on
"VC Rookie".  The rank-to-role scan iterates `reversed(ROLE_HIERARCHY)`. -/
def ROLE_HIERARCHY : List (String × Option Nat) :=
  [("VC Rookie", none),
   ("VC Raider", some 50),
   ("VC Challenger", some 40),
   ("VC Elite", some 30),
   ("VC Legend", some 20),
   ("VC Top Contender", some 10),
   ("VC Finalist", some 5),
   ("VC Champ", some 3),
   ("VC MVP", some 2),
   ("Apex Speaker", some 1)]

/-- The per-entry test of the rank loop (line 389):
`threshold is None or rank <= threshold`. -/
def thresholdOk (rank : Nat) : String × Option Nat → Bool
  | (_, none) => true
  | (_, some t) => rank ≤ t

/-- The target-role computation (lines 387-391): scan
`reversed(ROLE_HIERARCHY)` - i.e. from most exclusive to least exclusive -
and select the first entry whose threshold is `None` or `≥ rank`.  Returns
the role's name (the `guild_roles[role_name]` lookup resolves the name to a
role object; names identify roles here since the missing-roles check at
lines 374-377 has already passed). -/
def targetRole (hierarchy : List (String × Option Nat)) (rank : Nat) : Option String :=
  (hierarchy.reverse.find? (thresholdOk rank)).map Prod.fst

/-- Spec-side rendition of the sentence "scan the threshold table from
most-exclusive to least-exclusive and select the first tier whose threshold
is none or whose threshold ≥ rank": structural recursion over a list given
most-exclusive first. -/
def specFirstTier (rank : Nat) : List (String × Option Nat) → Option String
  | [] => none
  | (nm, th) :: rest =>
    match th with
    | none => some nm
    | some t => if rank ≤ t then some nm else specFirstTier rank rest

/-- Outcome of one Discord role-mutation call. -/
inductive ApiResult where
  | ok : ApiResult
  | forbidden : ApiResult
  | rateLimited (retry : Nat) : ApiResult
  | httpError : ApiResult
  deriving DecidableEq

/-- What the reconciliation pass reads and triggers for one guild member:
the member's current role names, and the outcome each directory-mutation
call would have if issued. -/
structure MemberRec where
  roles : List String
  removeRes : ApiResult
  addRes : ApiResult
  deriving DecidableEq

/-- Externally visible step taken by the reconciliation pass: the two
directory-mutation calls, the fixed 0.5 s inter-mutation delay
(`asyncio.sleep(0.5)`, line 410), and a rate-limit pause
(`asyncio.sleep(retry_after)`, line 337). -/
inductive Action where
  | removeRoles (user : Nat) (roles : List String) : Action
  | addRole (user : Nat) (role : String) : Action
  | sleepFixed : Action
  | sleepRetry (secs : Nat) : Action
  deriving DecidableEq

/-- Shallow embedding of the per-member body of `update_guild_vc_roles`
(src/main.py lines 386-415), returning the sequence of externally visible
actions for this member.  `current` is `current_vc_roles` (line 393); the
skip test is line 396.  Inside the `try` block a non-`ok` call outcome
raises, the per-member `except` clauses catch it (both `discord.Forbidden`
and the blanket `except Exception`, lines 412-415, only log), so the rest
of the block - including the 0.5 s sleep - is skipped and the pass moves on
to the next member. -/
def processMember (hierarchy : List (String × Option Nat)) (rank uid : Nat)
    (m : MemberRec) : List Action :=
  let target := targetRole hierarchy rank
  let current := m.roles.filter (fun r => (hierarchy.map Prod.fst).contains r)
  if current.length == 1 && (current.head? == target) then []
  else
    let addPhase : List Action :=
      match target with
      | some t => .addRole uid t :: (if m.addRes == .ok then [.sleepFixed] else [])
      | none => [.sleepFixed]
    if current.isEmpty then addPhase
    else .removeRoles uid current :: (if m.removeRes == .ok then addPhase else [])

/-- Shallow embedding of a whole reconciliation pass `update_guild_vc_roles`
(src/main.py lines 355-418).  `rows` is the list of user ids fetched in
descending order of `total_seconds`; ranks are their 1-based positions
(line 381).  The pass ends immediately with no mutation when the fetch is
empty (lines 367-369) or when a configured role is missing from the guild
(lines 374-377); a member absent from the roster is skipped (lines 382-384). -/
def update_guild_vc_roles (hierarchy : List (String × Option Nat))
    (guildRoles : List String) (rows : List Nat)
    (memberOf : Nat → Option MemberRec) : List Action :=
  if rows.isEmpty then []
  else if (hierarchy.map Prod.fst).any (fun n => !(guildRoles.contains n)) then []
  else
    rows.enum.flatMap (fun p =>
      match memberOf p.2 with
      | none => []
      | some m => processMember hierarchy (p.1 + 1) p.2 m)

/-- A voice state with a channel and an active stream. -/
def vsOn : VoiceState := { channel_present := true, self_stream := true }

/-- A voice state with no channel (and hence no stream). -/
def vsOff : VoiceState := { channel_present := false, self_stream := false }

/-- A non-bot member of guild `g` with id `u` that currently holds the
"Streaming stat" role, in a guild where that role exists. -/
def mkMember (g u : Nat) : Member :=
  { isBot := false, hasGuild := true, guild_id := g, id := u,
    hasRole := true, roleExists := true }

/-- Flush-task observation: member found, still streaming, still has the
role (the periodic-checkpoint branch, lines 287-301). -/
def obsQual : FlushObs :=
  { guildFound := true, memberFound := true, roleExists := true,
    is_streaming := true, has_role := true }

/-- Flush-task observation: member found but no longer streaming (the
implicit-stop branch, lines 268-285). -/
def obsLost : FlushObs :=
  { guildFound := true, memberFound := true, roleExists := true,
    is_streaming := false, has_role := true }

/-- One observation concerning a fixed (guild, user) key: a qualifying start
presence signal, a qualifying stop presence signal, a flush tick that finds
the member still qualifying, or a flush tick that finds a condition lost.
`dbOk` is whether the database write (if one is attempted) succeeds. -/
inductive KEv where
  | start (now : Int) : KEv
  | stop (now : Int) (dbOk : Bool) : KEv
  | flushQ (now : Int) (dbOk : Bool) : KEv
  | flushU (now : Int) (dbOk : Bool) : KEv
  deriving DecidableEq

/-- The monotonic timestamp of an observation. -/
def evTime : KEv → Int
  | .start n => n
  | .stop n _ => n
  | .flushQ n _ => n
  | .flushU n _ => n

/-- `timesMonoB t evs` : every observation in `evs` happens no earlier than
`t`, and timestamps are nondecreasing along the list (monotonic clock). -/
def timesMonoB : Int → List KEv → Bool
  | _, [] => true
  | t, e :: r => decide (t ≤ evTime e) && timesMonoB (evTime e) r

/-- Apply one single-key observation to the tracker state through the
embedded handlers. -/
def kStep (g u : Nat) (st : TrackerState) : KEv → TrackerState
  | .start now => on_voice_state_update st (mkMember g u) vsOff vsOn now true
  | .stop now dbOk => on_voice_state_update st (mkMember g u) vsOn vsOff now dbOk
  | .flushQ now dbOk => save_streaming_time_key st (g, u) obsQual now dbOk
  | .flushU now dbOk => save_streaming_time_key st (g, u) obsLost now dbOk

/-- Ghost observer for the elapsed-time account of one key.  Its state is
`(openSince?, closedElapsed)`: when the tracker opens a session the observer
records the opening time; when the tracker removes the session at time `now`
it credits `now - openSince` to the total elapsed time between that start
and its stop.  Checkpoints (which leave the session in the map) change
nothing. -/
def ghostStep (beforeJ afterJ : Option Int) (now : Int) :
    Option Int × Int → Option Int × Int
  | (ge, acc) =>
    match ge, beforeJ, afterJ with
    | none, none, some _ => (some now, acc)
    | some e, some _, none => (none, acc + (now - e))
    | _, _, _ => (ge, acc)

/-- Run a list of single-key observations, stepping the tracker and the
ghost elapsed-time observer together. -/
def kRun (g u : Nat) :
    TrackerState × (Option Int × Int) → List KEv → TrackerState × (Option Int × Int)
  | p, [] => p
  | (st, gs), e :: r =>
    let st' := kStep g u st e
    kRun g u (st', ghostStep (st.join_times (g, u)) (st'.join_times (g, u)) (evTime e) gs) r

/-- The elapsed time the run is entitled to merge: the elapsed time of every
closed start-stop episode, plus - for a still-open session - the time from
the episode's start up to the session's last checkpoint. -/
def sessionCredit (g u : Nat) (p : TrackerState × (Option Int × Int)) : Int :=
  p.2.2 +
    match p.1.join_times (g, u), p.2.1 with
    | some j, some e => j - e
    | _, _ => 0

/-- Invariant tying the tracker state, the ghost observer and a lower bound
`t` on all future timestamps: the session map and the observer agree on
whether a session is open; the merged total never exceeds the elapsed-time
credit; and an open session's last checkpoint lies between its episode start
and `t`. -/
def C1Inv (g u : Nat) (st : TrackerState) (gs : Option Int × Int) (t : Int) : Prop :=
  match st.join_times (g, u), gs.1 with
  | none, none => mergedFor st (g, u) ≤ gs.2
  | some j, some e => mergedFor st (g, u) ≤ gs.2 + (j - e) ∧ e ≤ j ∧ j ≤ t
  | _, _ => False

/-- A trace event concerning arbitrary keys: a presence event for any member,
or a flush-task iteration for any key. -/
inductive TEv where
  | voice (m : Member) (before after : VoiceState) (now : Int) (dbOk : Bool) : TEv
  | flushKey (key : Key) (obs : FlushObs) (now : Int) (dbOk : Bool) : TEv

/-- Apply one trace event through the embedded handlers. -/
def tStep (st : TrackerState) : TEv → TrackerState
  | .voice m b a now dbOk => on_voice_state_update st m b a now dbOk
  | .flushKey key obs now dbOk => save_streaming_time_key st key obs now dbOk

/-- Run a list of trace events. -/
def tRun : TrackerState → List TEv → TrackerState
  | st, [] => st
  | st, e :: r => tRun (tStep st e) r

/-- `botOnlyFor k ev` : if `ev` is a presence event whose member has key `k`,
then that member is a bot account or has no guild. -/
def botOnlyFor (k : Key) : TEv → Bool
  | .voice m _ _ _ _ => !(decide ((m.guild_id, m.id) = k)) || (m.isBot || !m.hasGuild)
  | .flushKey _ _ _ _ => true

section Lemmas

variable {m : Key → Option Int} {k q : Key} {v : Int}

@[simp] lemma mapSet_self : mapSet m k v k = some v := by
  simp [mapSet]

@[simp] lemma mapDel_self : mapDel m k k = none := by
  simp [mapDel]

lemma mapSet_other (h : q ≠ k) : mapSet m k v q = m q := by
  simp [mapSet, h]

lemma mapDel_other (h : q ≠ k) : mapDel m k q = m q := by
  simp [mapDel, h]

@[simp] lemma doMerge_join_times (st : TrackerState) (k : Key) (d : Int) :
    (doMerge st k d).join_times = st.join_times := rfl

@[simp] lemma mergedFor_set_join (st : TrackerState) (f : Key → Option Int) (k : Key) :
    mergedFor { st with join_times := f } k = mergedFor st k := rfl

@[simp] lemma mergedFor_doMerge_self (st : TrackerState) (k : Key) (d : Int) :
    mergedFor (doMerge st k d) k = d + mergedFor st k := by
  simp [mergedFor, doMerge]

lemma mergedFor_doMerge_other (st : TrackerState) (k' k : Key) (d : Int)
    (h : k' ≠ k) : mergedFor (doMerge st k' d) k = mergedFor st k := by
  simp [mergedFor, doMerge, h]

@[simp] lemma mergedFor_initState (k : Key) : mergedFor initState k = 0 := rfl

/-- `List.find?` over the threshold test, projected to the role name, agrees
with the spec-side first-match recursion. -/
lemma find_thresholdOk_eq_specFirstTier (rank : Nat) (l : List (String × Option Nat)) :
    (l.find? (thresholdOk rank)).map Prod.fst = specFirstTier rank l := by
  induction l with
  | nil => rfl
  | cons hd tl ih =>
    obtain ⟨nm, th⟩ := hd
    cases th with
    | none => simp [List.find?, thresholdOk, specFirstTier]
    | some t =>
      by_cases hrt : rank ≤ t
      · simp [List.find?, thresholdOk, specFirstTier, hrt]
      · simp [List.find?, thresholdOk, specFirstTier, hrt, ih]

/-- The first-match scan succeeds on any table containing a `none`-threshold
(catch-all) entry. -/
lemma specFirstTier_isSome (rank : Nat) (l : List (String × Option Nat))
    (h : ∃ p ∈ l, p.2 = none) : ∃ t, specFirstTier rank l = some t := by
  induction l with
  | nil => simp at h
  | cons hd tl ih =>
    obtain ⟨nm, th⟩ := hd
    cases th with
    | none => exact ⟨nm, rfl⟩
    | some t =>
      by_cases hrt : rank ≤ t
      · exact ⟨nm, by simp [specFirstTier, hrt]⟩
      · obtain ⟨p, hp, hp2⟩ := h
        rcases List.mem_cons.mp hp with h1 | h2
        · rw [h1] at hp2; simp at hp2
        · obtain ⟨t', ht'⟩ := ih ⟨p, h2, hp2⟩
          exact ⟨t', by simp [specFirstTier, hrt, ht']⟩

end Lemmas

/-- C3: the target tier for rank `r` is the first entry, scanning the
threshold table from most-exclusive to least-exclusive, whose threshold is
`none` or `≥ r`; on the example table `[(T1,1),(T2,2),(T3,none)]` (stored in
the source's least-exclusive-first order) ranks `[1,2,3,4]` receive tiers
`[T1,T2,T3,T3]`; and with the configured `ROLE_HIERARCHY` every rank maps to
exactly one tier. -/
theorem c3_rank_to_tier :
    (∀ (tbl : List (String × Option Nat)) (rank : Nat),
        targetRole tbl rank = specFirstTier rank tbl.reverse)
    ∧ [1, 2, 3, 4].map (targetRole [("T3", none), ("T2", some 2), ("T1", some 1)]) =
        [some "T1", some "T2", some "T3", some "T3"]
    ∧ (∀ rank : Nat, ∃ t, targetRole ROLE_HIERARCHY rank = some t) := by
  refine ⟨fun tbl rank => find_thresholdOk_eq_specFirstTier rank tbl.reverse, by decide, ?_⟩
  intro rank
  rw [show targetRole ROLE_HIERARCHY rank = specFirstTier rank ROLE_HIERARCHY.reverse from
        find_thresholdOk_eq_specFirstTier rank ROLE_HIERARCHY.reverse]
  exact specFirstTier_isSome rank ROLE_HIERARCHY.reverse (by decide)

/-- C5: a ranked member whose current set of tier roles is exactly the
singleton containing the target tier produces zero directory-mutation calls
(indeed, zero externally visible actions) in the pass. -/
theorem c5_reconciliation_minimality :
    ∀ (hierarchy : List (String × Option Nat)) (rank uid : Nat) (m : MemberRec)
      (t : String),
      targetRole hierarchy rank = some t →
      m.roles.filter (fun r => (hierarchy.map Prod.fst).contains r) = [t] →
      processMember hierarchy rank uid m = [] := by
  intro hierarchy rank uid m t ht hcur
  simp only [processMember, hcur, ht]
  simp

/-- Witness for C5 at a concrete input: rank 1 with current roles exactly
`["Apex Speaker"]` yields no actions. -/
theorem c5_reconciliation_minimality_witness :
    processMember ROLE_HIERARCHY 1 7
      { roles := ["Apex Speaker"], removeRes := .ok, addRes := .ok } = [] :=
  c5_reconciliation_minimality ROLE_HIERARCHY 1 7
    { roles := ["Apex Speaker"], removeRes := .ok, addRes := .ok }
    "Apex Speaker" (by decide) (by decide)

/-- C8 counterexample: a negative delta is not rejected - the upsert still
fires and mutates the store.  With a stored total of 10, merging `-3` yields
7, contradicting "fails with `InvalidDelta` and leaves the store unchanged". -/
theorem c8_counterexample :
    voice_time_upsert (fun q => if q = ((1 : Nat), (2 : Nat)) then some 10 else none)
        (1, 2) (-3) (1, 2) = some 7 ∧
    ¬ voice_time_upsert (fun q => if q = ((1 : Nat), (2 : Nat)) then some 10 else none)
        (1, 2) (-3) (1, 2) =
      (fun q => if q = ((1 : Nat), (2 : Nat)) then some 10 else none) (1, 2) := by
  exact ⟨by decide, by decide⟩

/-- C8 amended: the merge never fails - for every delta (negative included)
it performs the additive upsert, creating the row with value `delta` when
absent and adding `delta` to the existing total when present, leaving every
other key unchanged. -/
theorem c8_merge_additive_upsert :
    ∀ (store : Key → Option Int) (k : Key) (delta : Int),
      voice_time_upsert store k delta k = some ((store k).getD 0 + delta) ∧
      ∀ q : Key, q ≠ k → voice_time_upsert store k delta q = store q := by
  intro store k delta
  exact ⟨by simp [voice_time_upsert], fun q hq => by simp [voice_time_upsert, hq]⟩

/-- Witness for C8's amended theorem at a concrete input: merging 7 into an
empty store creates the row with value 7 and leaves another key absent. -/
theorem c8_merge_additive_upsert_witness :
    voice_time_upsert (fun _ => none) (1, 2) 7 (1, 2) =
      some (((fun _ => (none : Option Int)) ((1 : Nat), (2 : Nat))).getD 0 + 7) ∧
    voice_time_upsert (fun _ => none) (1, 2) 7 (3, 4) = (fun _ => (none : Option Int)) (3, 4) :=
  ⟨(c8_merge_additive_upsert (fun _ => none) (1, 2) 7).1,
   (c8_merge_additive_upsert (fun _ => none) (1, 2) 7).2 (3, 4) (by decide)⟩

section HandlerLemmas

variable {st : TrackerState} {m : Member} {b a : VoiceState} {now : Int} {dbOk : Bool}

/-- Guard at line 181: events for bot members, or members without a guild,
leave the state untouched. -/
lemma ovsu_bot (h : m.isBot = true ∨ m.hasGuild = false) :
    on_voice_state_update st m b a now dbOk = st := by
  rcases h with h | h <;> simp [on_voice_state_update, h]

/-- The presence handler never touches the `join_times` entry of any key
other than the event member's own key. -/
lemma ovsu_join_times_other {k : Key} (hk : (m.guild_id, m.id) ≠ k) :
    (on_voice_state_update st m b a now dbOk).join_times k = st.join_times k := by
  simp only [on_voice_state_update]
  repeat' split
  all_goals simp [mapSet_other (Ne.symm hk), mapDel_other (Ne.symm hk)]

/-- The presence handler never merges time for any key other than the event
member's own key. -/
lemma ovsu_mergedFor_other {k : Key} (hk : (m.guild_id, m.id) ≠ k) :
    mergedFor (on_voice_state_update st m b a now dbOk) k = mergedFor st k := by
  simp only [on_voice_state_update]
  repeat' split
  all_goals simp [mergedFor_doMerge_other _ _ _ _ hk]

/-- A flush iteration for a key with no active session is a no-op
(lines 246-249). -/
lemma flush_none {key : Key} {obs : FlushObs}
    (hj : st.join_times key = none) :
    save_streaming_time_key st key obs now dbOk = st := by
  simp [save_streaming_time_key, hj]

/-- A flush iteration for one key never touches the `join_times` entry of a
different key. -/
lemma flush_join_times_other {key k : Key} {obs : FlushObs} (hk : key ≠ k) :
    (save_streaming_time_key st key obs now dbOk).join_times k = st.join_times k := by
  simp only [save_streaming_time_key]
  repeat' split
  all_goals simp [mapSet_other (Ne.symm hk), mapDel_other (Ne.symm hk)]

/-- A flush iteration for one key never merges time for a different key. -/
lemma flush_mergedFor_other {key k : Key} {obs : FlushObs} (hk : key ≠ k) :
    mergedFor (save_streaming_time_key st key obs now dbOk) k = mergedFor st k := by
  simp only [save_streaming_time_key]
  repeat' split
  all_goals simp [mergedFor_doMerge_other _ _ _ _ hk]

end HandlerLemmas

/-- C2: a qualifying start signal arriving while a session already exists for
the key leaves the state unchanged (a no-op, not an error), and a qualifying
stop signal arriving when no session exists leaves the state unchanged - no
store mutation, no session-map change. -/
theorem c2_idempotent_start_stop :
    (∀ (st : TrackerState) (m : Member) (b a : VoiceState) (now : Int)
        (dbOk : Bool) (j : Int),
        ((a.channel_present && a.self_stream) && m.hasRole) = true →
        ((b.channel_present && b.self_stream) && m.hasRole) = false →
        st.join_times (m.guild_id, m.id) = some j →
        on_voice_state_update st m b a now dbOk = st)
    ∧ (∀ (st : TrackerState) (m : Member) (b a : VoiceState) (now : Int)
        (dbOk : Bool),
        ((b.channel_present && b.self_stream) && m.hasRole) = true →
        ((a.channel_present && a.self_stream) && m.hasRole) = false →
        st.join_times (m.guild_id, m.id) = none →
        on_voice_state_update st m b a now dbOk = st) := by
  constructor
  · intro st m b a now dbOk j _h1 h2 hj
    simp [on_voice_state_update, h2, hj]
  · intro st m b a now dbOk _h1 h2 hj
    simp [on_voice_state_update, h2, hj]

/-- Witness for C2 at concrete inputs: a duplicate start with the session
already open is a no-op, and a stop with no session is a no-op. -/
theorem c2_idempotent_start_stop_witness :
    on_voice_state_update
        { initState with join_times := mapSet initState.join_times (1, 2) 0 }
        (mkMember 1 2) vsOff vsOn 7 true =
      { initState with join_times := mapSet initState.join_times (1, 2) 0 } ∧
    on_voice_state_update initState (mkMember 1 2) vsOn vsOff 7 true = initState :=
  ⟨c2_idempotent_start_stop.1
      { initState with join_times := mapSet initState.join_times (1, 2) 0 }
      (mkMember 1 2) vsOff vsOn 7 true 0 (by decide) (by decide) (by decide),
   c2_idempotent_start_stop.2 initState (mkMember 1 2) vsOn vsOff 7 true
      (by decide) (by decide) rfl⟩

/-- C4: a session closed with less than 5 seconds elapsed since its start
(or last flush checkpoint) performs no merge at all - neither the store nor
the merge log changes - yet the session is still removed from the active
map; this holds on the presence-event stop path and on the flush-task
implicit-stop path. -/
theorem c4_short_session_discard :
    (∀ (st : TrackerState) (m : Member) (b a : VoiceState) (now j : Int)
        (dbOk : Bool),
        m.isBot = false → m.hasGuild = true → m.roleExists = true →
        ((b.channel_present && b.self_stream) && m.hasRole) = true →
        ((a.channel_present && a.self_stream) && m.hasRole) = false →
        st.join_times (m.guild_id, m.id) = some j →
        now - j < 5 →
        on_voice_state_update st m b a now dbOk =
          { st with join_times := mapDel st.join_times (m.guild_id, m.id) })
    ∧ (∀ (st : TrackerState) (key : Key) (obs : FlushObs) (now j : Int)
        (dbOk : Bool),
        obs.guildFound = true → obs.memberFound = true → obs.roleExists = true →
        obs.is_streaming = false ∨ obs.has_role = false →
        st.join_times key = some j →
        now - j < 5 →
        save_streaming_time_key st key obs now dbOk =
          { st with join_times := mapDel st.join_times key }) := by
  constructor
  · intro st m b a now j dbOk h1 h2 h3 h4 h5 hj hlt
    have h6 : ¬ (5 ≤ now - j) := by omega
    simp [on_voice_state_update, h1, h2, h3, h4, h5, hj, h6]
  · intro st key obs now j dbOk hg hm hr hcond hj hlt
    have h6 : ¬ (5 ≤ now - j) := by omega
    rcases hcond with hc | hc <;>
      simp [save_streaming_time_key, hg, hm, hr, hc, hj, h6]

/-- Witness for C4 at concrete inputs: a stop 3 seconds after the start, on
each path, removes the session and produces zero merge calls. -/
theorem c4_short_session_discard_witness :
    on_voice_state_update
        { initState with join_times := mapSet initState.join_times (1, 2) 0 }
        (mkMember 1 2) vsOn vsOff 3 true =
      { { initState with join_times := mapSet initState.join_times (1, 2) 0 } with
        join_times := mapDel (mapSet initState.join_times (1, 2) 0) (1, 2) } ∧
    save_streaming_time_key
        { initState with join_times := mapSet initState.join_times (1, 2) 0 }
        (1, 2) obsLost 3 true =
      { { initState with join_times := mapSet initState.join_times (1, 2) 0 } with
        join_times := mapDel (mapSet initState.join_times (1, 2) 0) (1, 2) } :=
  ⟨c4_short_session_discard.1
      { initState with join_times := mapSet initState.join_times (1, 2) 0 }
      (mkMember 1 2) vsOn vsOff 3 0 true rfl rfl rfl (by decide) (by decide)
      (by decide) (by decide),
   c4_short_session_discard.2
      { initState with join_times := mapSet initState.join_times (1, 2) 0 }
      (1, 2) obsLost 3 0 true rfl rfl rfl (Or.inl rfl) (by decide) (by decide)⟩

/-- C6 failing input: a session is open for (guild 1, user 2) since time 0;
the member's "Streaming stat" role has meanwhile been removed (no voice
event fires for a role change); at time 40 a presence event reports the user
stopped streaming.  Because line 199 computes `had_role_before` from the
member's current roles, `was_tracking_before` evaluates to false and the
handler takes no branch: the session stays in the map (and nothing is
merged), although both conditions have been lost - the claim requires it to
be closed and removed using the flags that held before the event. -/
theorem c6_presence_stop_missed_eval :
    on_voice_state_update
        { initState with join_times := mapSet initState.join_times (1, 2) 0 }
        { isBot := false, hasGuild := true, guild_id := 1, id := 2,
          hasRole := false, roleExists := true }
        vsOn vsOff 40 true =
      { initState with join_times := mapSet initState.join_times (1, 2) 0 } := rfl

/-- C7 counterexample: a qualifying stop at time 10 for a session opened at
time 0 (10 s elapsed, above the minimum) whose database write fails: the
session is nevertheless removed from the active map (`del join_times[key]`
at line 230 is outside the `try`), the store is untouched and no merge was
recorded anywhere - the 10-second delta is lost, contradicting "the session
is removed from the map only after a successful merge, or the delta is
requeued". -/
theorem c7_counterexample :
    (on_voice_state_update
        { initState with join_times := mapSet initState.join_times (1, 2) 0 }
        (mkMember 1 2) vsOn vsOff 10 false).join_times (1, 2) = none ∧
    (on_voice_state_update
        { initState with join_times := mapSet initState.join_times (1, 2) 0 }
        (mkMember 1 2) vsOn vsOff 10 false).store (1, 2) = none ∧
    (on_voice_state_update
        { initState with join_times := mapSet initState.join_times (1, 2) 0 }
        (mkMember 1 2) vsOn vsOff 10 false).mergeLog = [] := by
  exact ⟨by decide, by decide, by decide⟩

/-- C7 amended: on the presence-event stop path the session is removed from
the active map unconditionally, whether or not the store write succeeds; and
when the write fails the only state change is that removal - the failed
delta is neither stored nor requeued (it is lost; only an error is logged). -/
theorem c7_stop_removes_session_unconditionally :
    ∀ (st : TrackerState) (m : Member) (b a : VoiceState) (now j : Int)
      (dbOk : Bool),
      m.isBot = false → m.hasGuild = true → m.roleExists = true →
      ((b.channel_present && b.self_stream) && m.hasRole) = true →
      ((a.channel_present && a.self_stream) && m.hasRole) = false →
      st.join_times (m.guild_id, m.id) = some j →
      (on_voice_state_update st m b a now dbOk).join_times (m.guild_id, m.id) = none ∧
      (dbOk = false →
        on_voice_state_update st m b a now dbOk =
          { st with join_times := mapDel st.join_times (m.guild_id, m.id) }) := by
  intro st m b a now j dbOk h1 h2 h3 h4 h5 hj
  constructor
  · by_cases h6 : 5 ≤ now - j <;> cases dbOk <;>
      simp [on_voice_state_update, h1, h2, h3, h4, h5, hj, h6]
  · intro hdb
    subst hdb
    by_cases h6 : 5 ≤ now - j <;>
      simp [on_voice_state_update, h1, h2, h3, h4, h5, hj, h6]

/-- Witness for C7's amended theorem at a concrete input: the stop at time
10 with a failing database removes the session and changes nothing else. -/
theorem c7_stop_removes_session_unconditionally_witness :
    (on_voice_state_update
        { initState with join_times := mapSet initState.join_times (1, 2) 0 }
        (mkMember 1 2) vsOn vsOff 10 false).join_times (1, 2) = none ∧
    (false = false →
      on_voice_state_update
          { initState with join_times := mapSet initState.join_times (1, 2) 0 }
          (mkMember 1 2) vsOn vsOff 10 false =
        { { initState with join_times := mapSet initState.join_times (1, 2) 0 } with
          join_times := mapDel (mapSet initState.join_times (1, 2) 0) (1, 2) }) :=
  c7_stop_removes_session_unconditionally
    { initState with join_times := mapSet initState.join_times (1, 2) 0 }
    (mkMember 1 2) vsOn vsOff 10 0 false rfl rfl rfl (by decide) (by decide)
    (by decide)

/-- C9 failing input: five ranked users, each needing their target role
added; the directory service answers user 3's `add_roles` call with
`RateLimited(retry_after=2)`.  The embedded pass shows what the code does:
the 429 is caught by the per-member blanket `except Exception` (line 414),
which only logs, so the pass continues immediately - users 4 and 5 are
mutated with no rate-limit pause anywhere (the output contains no
`sleepRetry`; the `Retry-After` sleep at line 337 is unreachable because no
mutation exception escapes `update_guild_vc_roles`).  The claim instead
requires the whole pass to pause for the service-specified duration before
resuming. -/
theorem c9_rate_limit_no_pause_eval :
    update_guild_vc_roles [("T3", none), ("T2", some 2), ("T1", some 1)]
        ["T1", "T2", "T3"] [1, 2, 3, 4, 5]
        (fun uid => some { roles := [], removeRes := .ok,
                           addRes := if uid == 3 then .rateLimited 2 else .ok }) =
      [.addRole 1 "T1", .sleepFixed, .addRole 2 "T2", .sleepFixed,
       .addRole 3 "T3", .addRole 4 "T3", .sleepFixed, .addRole 5 "T3",
       .sleepFixed] ∧
    (update_guild_vc_roles [("T3", none), ("T2", some 2), ("T1", some 1)]
        ["T1", "T2", "T3"] [1, 2, 3, 4, 5]
        (fun uid => some { roles := [], removeRes := .ok,
                           addRes := if uid == 3 then .rateLimited 2 else .ok })).all
      (fun act => match act with
        | Action.sleepRetry _ => false
        | _ => true) = true := by
  exact ⟨by decide, by decide⟩

/-- C10: a presence event for a bot member (or a member without a guild) has
no effect at all; consequently, along any trace of presence events and flush
iterations in which every presence event for key `k` belongs to a bot (or
guild-less) member, `k` never appears in the active-session map and no time
is ever merged for `k`. -/
theorem c10_bot_events_no_effect :
    (∀ (st : TrackerState) (m : Member) (b a : VoiceState) (now : Int)
        (dbOk : Bool),
        m.isBot = true ∨ m.hasGuild = false →
        on_voice_state_update st m b a now dbOk = st)
    ∧ (∀ (k : Key) (evs : List TEv) (st : TrackerState),
        st.join_times k = none → mergedFor st k = 0 →
        evs.all (botOnlyFor k) = true →
        (tRun st evs).join_times k = none ∧ mergedFor (tRun st evs) k = 0) := by
  refine ⟨fun st m b a now dbOk h => ovsu_bot h, ?_⟩
  intro k evs
  induction evs with
  | nil => exact fun st h1 h2 _ => ⟨h1, h2⟩
  | cons e r ih =>
    intro st h1 h2 hall
    rw [List.all_cons, Bool.and_eq_true] at hall
    obtain ⟨he, hr⟩ := hall
    refine ih (tStep st e) ?_ ?_ hr
    · cases e with
      | voice m b a now dbOk =>
        by_cases hkey : (m.guild_id, m.id) = k
        · have hbot : m.isBot = true ∨ m.hasGuild = false := by
            simp [botOnlyFor, hkey] at he
            rcases he with he | he
            · exact Or.inl he
            · exact Or.inr he
          simpa [tStep, ovsu_bot hbot] using h1
        · simpa [tStep, ovsu_join_times_other hkey] using h1
      | flushKey key obs now dbOk =>
        by_cases hkey : key = k
        · subst hkey
          simpa [tStep, flush_none h1] using h1
        · simpa [tStep, flush_join_times_other hkey] using h1
    · cases e with
      | voice m b a now dbOk =>
        by_cases hkey : (m.guild_id, m.id) = k
        · have hbot : m.isBot = true ∨ m.hasGuild = false := by
            simp [botOnlyFor, hkey] at he
            rcases he with he | he
            · exact Or.inl he
            · exact Or.inr he
          simpa [tStep, ovsu_bot hbot] using h2
        · simpa [tStep, ovsu_mergedFor_other hkey] using h2
      | flushKey key obs now dbOk =>
        by_cases hkey : key = k
        · subst hkey
          simpa [tStep, flush_none h1] using h2
        · simpa [tStep, flush_mergedFor_other hkey] using h2

/-- Witness for C10 at concrete inputs: a bot member's presence event leaves
the state unchanged, and a trace of one bot presence event plus one flush
iteration leaves key (1,2) absent and unmerged. -/
theorem c10_bot_events_no_effect_witness :
    on_voice_state_update initState
        { isBot := true, hasGuild := true, guild_id := 1, id := 2,
          hasRole := true, roleExists := true } vsOff vsOn 5 true = initState ∧
    ((tRun initState
        [.voice { isBot := true, hasGuild := true, guild_id := 1, id := 2,
                  hasRole := true, roleExists := true } vsOff vsOn 5 true,
         .flushKey (1, 2) obsQual 40 true]).join_times (1, 2) = none ∧
      mergedFor (tRun initState
        [.voice { isBot := true, hasGuild := true, guild_id := 1, id := 2,
                  hasRole := true, roleExists := true } vsOff vsOn 5 true,
         .flushKey (1, 2) obsQual 40 true]) (1, 2) = 0) :=
  ⟨c10_bot_events_no_effect.1 initState
      { isBot := true, hasGuild := true, guild_id := 1, id := 2,
        hasRole := true, roleExists := true } vsOff vsOn 5 true (Or.inl rfl),
   c10_bot_events_no_effect.2 (1, 2)
      [.voice { isBot := true, hasGuild := true, guild_id := 1, id := 2,
                hasRole := true, roleExists := true } vsOff vsOn 5 true,
       .flushKey (1, 2) obsQual 40 true] initState rfl rfl (by decide)⟩

section C1Machinery

variable {g u : Nat} {st : TrackerState} {now : Int}

/-- A start signal creates a session exactly when none exists. -/
lemma kStep_start_eval :
    kStep g u st (.start now) =
      if (st.join_times (g, u)).isNone then
        { st with join_times := mapSet st.join_times (g, u) now }
      else st := by
  simp [kStep, on_voice_state_update, mkMember, vsOff, vsOn]

/-- A stop signal with no session is a no-op. -/
lemma kStep_stop_none {dbOk : Bool} (hj : st.join_times (g, u) = none) :
    kStep g u st (.stop now dbOk) = st := by
  simp [kStep, on_voice_state_update, mkMember, vsOff, vsOn, hj]

/-- A stop signal with an open session merges the elapsed time when it is at
least 5 seconds and the write succeeds, then removes the session. -/
lemma kStep_stop_some {dbOk : Bool} {j : Int} (hj : st.join_times (g, u) = some j) :
    kStep g u st (.stop now dbOk) =
      (let st1 :=
        if 5 ≤ now - j then (if dbOk then doMerge st (g, u) (now - j) else st) else st
       { st1 with join_times := mapDel st1.join_times (g, u) }) := by
  simp [kStep, on_voice_state_update, mkMember, vsOff, vsOn, hj]

/-- A qualifying flush iteration with no session is a no-op. -/
lemma kStep_flushQ_none {dbOk : Bool} (hj : st.join_times (g, u) = none) :
    kStep g u st (.flushQ now dbOk) = st := by
  simp [kStep, save_streaming_time_key, obsQual, hj]

/-- A qualifying flush iteration with an open session checkpoints it when at
least 30 seconds elapsed and the write succeeds, else changes nothing. -/
lemma kStep_flushQ_some {dbOk : Bool} {j : Int} (hj : st.join_times (g, u) = some j) :
    kStep g u st (.flushQ now dbOk) =
      (if 30 ≤ now - j then
        (if dbOk then
          (let st1 := doMerge st (g, u) (now - j)
           { st1 with join_times := mapSet st1.join_times (g, u) now })
         else st)
       else st) := by
  simp [kStep, save_streaming_time_key, obsQual, hj]

/-- An unqualifying flush iteration with no session is a no-op. -/
lemma kStep_flushU_none {dbOk : Bool} (hj : st.join_times (g, u) = none) :
    kStep g u st (.flushU now dbOk) = st := by
  simp [kStep, save_streaming_time_key, obsLost, hj]

/-- An unqualifying flush iteration with an open session closes it: the
elapsed time is merged when it is at least 5 seconds and the write succeeds
(a failed write leaves everything for retry), and the session is removed. -/
lemma kStep_flushU_some {dbOk : Bool} {j : Int} (hj : st.join_times (g, u) = some j) :
    kStep g u st (.flushU now dbOk) =
      (if 5 ≤ now - j then
        (if dbOk then
          (let st1 := doMerge st (g, u) (now - j)
           { st1 with join_times := mapDel st1.join_times (g, u) })
         else st)
       else { st with join_times := mapDel st.join_times (g, u) }) := by
  simp [kStep, save_streaming_time_key, obsLost, hj]

/-- The invariant entails the merged-total bound. -/
lemma c1Inv_le_credit {gs : Option Int × Int} {t : Int}
    (h : C1Inv g u st gs t) : mergedFor st (g, u) ≤ sessionCredit g u (st, gs) := by
  unfold C1Inv at h
  unfold sessionCredit
  cases hj : st.join_times (g, u) with
  | none =>
    cases hg : gs.1 with
    | none => rw [hj, hg] at h; simpa [hj, hg] using h
    | some e0 => rw [hj, hg] at h; exact absurd h not_false
  | some j =>
    cases hg : gs.1 with
    | none => rw [hj, hg] at h; exact absurd h not_false
    | some e0 => rw [hj, hg] at h; simpa [hj, hg] using h.1

/-- One observation preserves the invariant, moving the time bound to the
observation's timestamp. -/
lemma c1Inv_step {gs : Option Int × Int} {t : Int} (e : KEv)
    (hInv : C1Inv g u st gs t) (ht : t ≤ evTime e) :
    C1Inv g u (kStep g u st e)
      (ghostStep (st.join_times (g, u)) ((kStep g u st e).join_times (g, u))
        (evTime e) gs) (evTime e) := by
  obtain ⟨ge, acc⟩ := gs
  unfold C1Inv at hInv
  cases e with
  | start now =>
    have ht' : t ≤ now := by simpa [evTime] using ht
    cases hj : st.join_times (g, u) with
    | none =>
      cases hg : ge with
      | none =>
        rw [hj, hg] at hInv
        have hI : mergedFor st (g, u) ≤ acc := hInv
        rw [kStep_start_eval]
        simp [ghostStep, hj, C1Inv, evTime]
        omega
      | some e0 => rw [hj, hg] at hInv; exact absurd hInv not_false
    | some j =>
      cases hg : ge with
      | none => rw [hj, hg] at hInv; exact absurd hInv not_false
      | some e0 =>
        rw [hj, hg] at hInv
        have hI : mergedFor st (g, u) ≤ acc + (j - e0) ∧ e0 ≤ j ∧ j ≤ t := hInv
        rw [kStep_start_eval]
        simp [ghostStep, hj, C1Inv, evTime]
        omega
  | stop now dbOk =>
    have ht' : t ≤ now := by simpa [evTime] using ht
    cases hj : st.join_times (g, u) with
    | none =>
      cases hg : ge with
      | none =>
        rw [hj, hg] at hInv
        have hI : mergedFor st (g, u) ≤ acc := hInv
        rw [kStep_stop_none hj]
        simp [ghostStep, hj, C1Inv, evTime]
        omega
      | some e0 => rw [hj, hg] at hInv; exact absurd hInv not_false
    | some j =>
      cases hg : ge with
      | none => rw [hj, hg] at hInv; exact absurd hInv not_false
      | some e0 =>
        rw [hj, hg] at hInv
        have hI : mergedFor st (g, u) ≤ acc + (j - e0) ∧ e0 ≤ j ∧ j ≤ t := hInv
        rw [kStep_stop_some hj]
        by_cases h5 : 5 ≤ now - j
        · cases dbOk with
          | true =>
            simp [ghostStep, hj, C1Inv, evTime, h5]
            omega
          | false =>
            simp [ghostStep, hj, C1Inv, evTime, h5]
            omega
        · simp [ghostStep, hj, C1Inv, evTime, h5]
          omega
  | flushQ now dbOk =>
    have ht' : t ≤ now := by simpa [evTime] using ht
    cases hj : st.join_times (g, u) with
    | none =>
      cases hg : ge with
      | none =>
        rw [hj, hg] at hInv
        have hI : mergedFor st (g, u) ≤ acc := hInv
        rw [kStep_flushQ_none hj]
        simp [ghostStep, hj, C1Inv, evTime]
        omega
      | some e0 => rw [hj, hg] at hInv; exact absurd hInv not_false
    | some j =>
      cases hg : ge with
      | none => rw [hj, hg] at hInv; exact absurd hInv not_false
      | some e0 =>
        rw [hj, hg] at hInv
        have hI : mergedFor st (g, u) ≤ acc + (j - e0) ∧ e0 ≤ j ∧ j ≤ t := hInv
        rw [kStep_flushQ_some hj]
        by_cases h30 : 30 ≤ now - j
        · cases dbOk with
          | true =>
            simp [ghostStep, hj, C1Inv, evTime, h30]
            omega
          | false =>
            simp [ghostStep, hj, C1Inv, evTime, h30]
            omega
        · simp [ghostStep, hj, C1Inv, evTime, h30]
          omega
  | flushU now dbOk =>
    have ht' : t ≤ now := by simpa [evTime] using ht
    cases hj : st.join_times (g, u) with
    | none =>
      cases hg : ge with
      | none =>
        rw [hj, hg] at hInv
        have hI : mergedFor st (g, u) ≤ acc := hInv
        rw [kStep_flushU_none hj]
        simp [ghostStep, hj, C1Inv, evTime]
        omega
      | some e0 => rw [hj, hg] at hInv; exact absurd hInv not_false
    | some j =>
      cases hg : ge with
      | none => rw [hj, hg] at hInv; exact absurd hInv not_false
      | some e0 =>
        rw [hj, hg] at hInv
        have hI : mergedFor st (g, u) ≤ acc + (j - e0) ∧ e0 ≤ j ∧ j ≤ t := hInv
        rw [kStep_flushU_some hj]
        by_cases h5 : 5 ≤ now - j
        · cases dbOk with
          | true =>
            simp [ghostStep, hj, C1Inv, evTime, h5]
            omega
          | false =>
            simp [ghostStep, hj, C1Inv, evTime, h5]
            omega
        · simp [ghostStep, hj, C1Inv, evTime, h5]
          omega


/-- Running any monotone observation list from an invariant state keeps the
merged total below the elapsed-time credit. -/
lemma c1Inv_run (g u : Nat) (evs : List KEv) :
    ∀ (st : TrackerState) (gs : Option Int × Int) (t : Int),
      C1Inv g u st gs t → timesMonoB t evs = true →
      mergedFor (kRun g u (st, gs) evs).1 (g, u) ≤
        sessionCredit g u (kRun g u (st, gs) evs) := by
  induction evs with
  | nil => exact fun st gs t h _ => c1Inv_le_credit h
  | cons e r ih =>
    intro st gs t h hmono
    rw [timesMonoB, Bool.and_eq_true] at hmono
    obtain ⟨ht, hr⟩ := hmono
    exact ih _ _ (evTime e) (c1Inv_step e h (of_decide_eq_true ht)) hr

end C1Machinery

/-- C1 counterexample: the trace "start at 0, flush checkpoint at 30, stop
at 33" of qualifying signals for one key.  The ghost observer confirms it is
a single valid start-stop episode with 33 elapsed seconds, yet only 30
seconds are merged (the 3-second tail since the checkpoint is below the
5-second minimum and is discarded), refuting the claimed equality. -/
theorem c1_counterexample :
    mergedFor (kRun 1 2 (initState, (none, 0))
        [.start 0, .flushQ 30 true, .stop 33 true]).1 (1, 2) = 30 ∧
    (kRun 1 2 (initState, (none, 0))
        [.start 0, .flushQ 30 true, .stop 33 true]).2 = (none, 33) ∧
    ¬ mergedFor (kRun 1 2 (initState, (none, 0))
        [.start 0, .flushQ 30 true, .stop 33 true]).1 (1, 2) =
      (kRun 1 2 (initState, (none, 0))
        [.start 0, .flushQ 30 true, .stop 33 true]).2.2 := by
  exact ⟨by decide, by decide, by decide⟩

/-- C1 amended: over every monotone sequence of start/stop presence signals
and flush iterations for one key, the cumulative seconds merged into the
store (periodic checkpoints and final saves together) never exceed the
elapsed monotonic time between each start and its stop - the elapsed time of
all closed episodes plus, for a still-open session, the time up to its last
checkpoint.  (Equality can fail: segments below the 5-second minimum or the
30-second checkpoint interval are discarded.) -/
theorem c1_no_double_counting :
    ∀ (g u : Nat) (t0 : Int) (evs : List KEv),
      timesMonoB t0 evs = true →
      mergedFor (kRun g u (initState, (none, 0)) evs).1 (g, u) ≤
        sessionCredit g u (kRun g u (initState, (none, 0)) evs) := by
  intro g u t0 evs h
  exact c1Inv_run g u evs initState (none, 0) t0 (by simp [C1Inv, initState, mergedFor]) h

/-- Witness for C1's amended theorem on a concrete monotone trace: two full
episodes with a checkpoint, a duplicate start, a db failure and a short
tail. -/
theorem c1_no_double_counting_witness :
    mergedFor (kRun 1 2 (initState, (none, 0))
        [.start 0, .start 10, .flushQ 30 true, .stop 33 true,
         .start 40, .flushU 100 false, .flushU 120 true]).1 (1, 2) ≤
      sessionCredit 1 2 (kRun 1 2 (initState, (none, 0))
        [.start 0, .start 10, .flushQ 30 true, .stop 33 true,
         .start 40, .flushU 100 false, .flushU 120 true]) :=
  c1_no_double_counting 1 2 0
    [.start 0, .start 10, .flushQ 30 true, .stop 33 true,
     .start 40, .flushU 100 false, .flushU 120 true] (by decide)

end StreamBot
